import Mathlib

/-
Verification of the momentum screening and caching engine of the
python-stock-tracker repository.  The Python modules `utils.py` and
`crypto_utils.py` are shallowly embedded below: pandas Series become
`List (Option ℚ)` (a `none` entry models a NaN / undefined value, since
pandas propagates NaN through rolling windows and treats NaN comparisons
as False), floats become rationals, wall-clock instants become rationals
(seconds), and the process-wide mutable cache / rate-limit state is
threaded explicitly.  I/O collaborators (the Yahoo/CoinGecko HTTP
endpoints, the filesystem behind the JSON cache, the sqlite fallback
store) are parameters of the corresponding functions; logging `print`
calls and `time.sleep` pacing have no observable effect on the values
and state modelled here and are elided.
-/

namespace StockScreener

/-- Signal returned by `analyze_stoch_signal` ("BUY" / "SELL" / "HOLD"
strings in the Python source). -/
inductive Signal where
  | BUY : Signal
  | SELL : Signal
  | HOLD : Signal
deriving DecidableEq, Repr

/-- Arithmetic mean of a list of rationals (callers ensure nonempty;
`meanQ [] = 0` is never relied upon). -/
def meanQ (vs : List ℚ) : ℚ := vs.sum / (vs.length : ℚ)

/-- pandas `Series.mean()` with the default `skipna=True`: the mean of the
defined entries, NaN (here `none`) when no entry is defined. -/
def meanOpt (xs : List (Option ℚ)) : Option ℚ :=
  match xs.filterMap id with
  | [] => none
  | v :: vs => some (meanQ (v :: vs))

/-- pandas `Series.tail(n)`: the last `min n len` entries. -/
def tailN (xs : List α) (n : ℕ) : List α := xs.drop (xs.length - n)

/-- Resolution of a (possibly negative) Python index against a length,
as done by slicing: negative indices count from the end and clamp at 0,
positive ones clamp at the length. -/
def pyIdx (len : ℕ) (i : ℤ) : ℕ :=
  if i < 0 then (i + (len : ℤ)).toNat else min i.toNat len

/-- Python / pandas `xs[a:b]` (step 1) with possibly negative bounds,
e.g. `iloc[-(2*n):-n]`. -/
def pySlice (xs : List α) (a b : ℤ) : List α :=
  let la := pyIdx xs.length a
  let lb := pyIdx xs.length b
  (xs.drop la).take (lb - la)

/-- Last entry of a pandas Series (`iloc[-1]`), which may itself be NaN;
`none` for the empty series (callers guard nonemptiness). -/
def lastOpt (xs : List (Option ℚ)) : Option ℚ := xs.getLast?.getD none

/-- Python `a is not None and current > a` where `current` may be NaN:
a NaN comparison is False, so both operands must be defined. -/
def optGtB (a b : Option ℚ) : Bool :=
  match a, b with
  | some x, some y => decide (y < x)
  | _, _ => false

/-- Python `a is not None and current < a` with NaN-is-False comparison. -/
def optLtB (a b : Option ℚ) : Bool :=
  match a, b with
  | some x, some y => decide (x < y)
  | _, _ => false

/-- Float subtraction with NaN propagation. -/
def optSub (a b : Option ℚ) : Option ℚ :=
  match a, b with
  | some x, some y => some (x - y)
  | _, _ => none

/-- Number of defined (non-NaN) entries of a series. -/
def definedCount (xs : List (Option ℚ)) : ℕ := (xs.filterMap id).length

/-- Length of the masked sub-series `series[series < c]` (or `> c`): a
NaN comparison is False, so exactly the defined entries satisfying `p`
survive the mask. -/
def maskCount (xs : List (Option ℚ)) (p : ℚ → Bool) : ℕ :=
  (xs.filter (fun o =>
    match o with
    | some v => p v
    | none => false)).length

/-- Embedding of `analyze_stoch_signal` (identical in `utils.py` lines
137-189 and `crypto_utils.py` lines 239-291): guard on the raw series
length, then oversold (< 20) and overbought (> 80) excursion averages
and the BUY-before-SELL signal derivation.  Note the anchoring of the
window: the code computes
`oversold_areas.index.get_loc(oversold_areas.index[-1])`, and since
`get_loc` is evaluated on the masked sub-series' own index it returns
the position of the last excursion label *within that masked index*,
i.e. the number of excursion points minus one — not the last
excursion's position in the original series.  The `n_candles` window
(clipped at the series start) is then sliced out of the original series
at that count-based position.  An all-undefined window makes the
average NaN, which the signal comparison treats the same way as a
missing excursion. -/
def analyze_stoch_signal (series : List (Option ℚ)) (n_candles : ℕ) :
    Signal × Option ℚ × Option ℚ × Option ℚ :=
  if series.length < n_candles + 1 then (Signal.HOLD, none, none, none)
  else
    let current := lastOpt series
    let oversold_avg :=
      if maskCount series (fun v => decide (v < 20)) = 0 then none
      else
        let i := maskCount series (fun v => decide (v < 20)) - 1
        let start := i + 1 - n_candles
        meanOpt ((series.drop start).take (i + 1 - start))
    let overbought_avg :=
      if maskCount series (fun v => decide (80 < v)) = 0 then none
      else
        let i := maskCount series (fun v => decide (80 < v)) - 1
        let start := i + 1 - n_candles
        meanOpt ((series.drop start).take (i + 1 - start))
    let signal :=
      if optGtB current oversold_avg then Signal.BUY
      else if optLtB current overbought_avg then Signal.SELL
      else Signal.HOLD
    (signal, current, oversold_avg, overbought_avg)

/-- Window length `total_candles` computed inline in `screen_stocks`
(`utils.py` lines 376-395): weekly is pinned to 2 candles total, other
intervals scale `momentum_days` by the bars-per-day factor, unknown
intervals default to 1 bar per day. -/
def total_candles_stock (interval : String) (momentum_days : ℕ) : ℕ :=
  if interval = "1W" then 2
  else if interval = "1d" then momentum_days * 1
  else if interval = "4h" then momentum_days * 6
  else if interval = "1h" then momentum_days * 24
  else momentum_days * 1

/-- Momentum fields of one `screen_stocks` result row (`utils.py` lines
397-423).  The column series have the same length as the fetched
DataFrame, so `rsi.length` is `len(data)`. -/
structure MomentumResult where
  rsi_momentum_flag : Bool
  sma_momentum_flag : Bool
  current_rsi_avg : Option ℚ
  prev_rsi_avg : Option ℚ
  current_sma_avg : Option ℚ
  prev_sma_avg : Option ℚ
deriving DecidableEq, Repr

/-- Embedding of the momentum-window arithmetic of `screen_stocks`
(`utils.py` lines 397-423): with at least `total_candles` rows the
current average is over the trailing window and the previous average
over the `iloc[-(2n):-n]` slice (weekly: the last bar vs the bar before
it); with fewer rows the latest indicator value serves as a degenerate
current/previous pair and both flags are False. -/
def momentumCalcStock (rsi sma : List (Option ℚ)) (interval : String)
    (momentum_days : ℕ) : MomentumResult :=
  let n := total_candles_stock interval momentum_days
  let len := rsi.length
  if n ≤ len then
    if interval = "1W" then
      let cr := meanOpt (tailN rsi 1)
      let pr := if 2 ≤ len then meanOpt (pySlice rsi (-2) (-1)) else rsi.getD 0 none
      let cs := meanOpt (tailN sma 1)
      let ps := if 2 ≤ len then meanOpt (pySlice sma (-2) (-1)) else sma.getD 0 none
      { rsi_momentum_flag := optGtB cr pr
        sma_momentum_flag := optGtB cs ps
        current_rsi_avg := cr, prev_rsi_avg := pr
        current_sma_avg := cs, prev_sma_avg := ps }
    else
      let cr := meanOpt (tailN rsi n)
      let pr := meanOpt (pySlice rsi (-(2 * (n : ℤ))) (-(n : ℤ)))
      let cs := meanOpt (tailN sma n)
      let ps := meanOpt (pySlice sma (-(2 * (n : ℤ))) (-(n : ℤ)))
      { rsi_momentum_flag := optGtB cr pr
        sma_momentum_flag := optGtB cs ps
        current_rsi_avg := cr, prev_rsi_avg := pr
        current_sma_avg := cs, prev_sma_avg := ps }
  else
    let lr := lastOpt rsi
    let ls := lastOpt sma
    { rsi_momentum_flag := false
      sma_momentum_flag := false
      current_rsi_avg := lr, prev_rsi_avg := lr
      current_sma_avg := ls, prev_sma_avg := ls }

/-- The reported `rsi_momentum` value, `current_rsi_avg - prev_rsi_avg`
(`utils.py` line 448). -/
def MomentumResult.rsi_momentum_val (m : MomentumResult) : Option ℚ :=
  optSub m.current_rsi_avg m.prev_rsi_avg

/-- The reported `sma_momentum` value, `current_sma_avg - prev_sma_avg`
(`utils.py` line 451). -/
def MomentumResult.sma_momentum_val (m : MomentumResult) : Option ℚ :=
  optSub m.current_sma_avg m.prev_sma_avg

/-- Crypto-side `get_candles_per_period` (`crypto_utils.py` lines
323-338). -/
def get_candles_per_period (timeframe : String) (days : ℕ) : ℕ :=
  if timeframe = "15m" then days * 24 * 4
  else if timeframe = "1h" then days * 24
  else if timeframe = "4h" then days * 6
  else if timeframe = "1d" then days
  else if timeframe = "1W" then max 1 (days / 7)
  else days

/-- One entry of the `rate_limits` dictionary of `CacheManager`
(`crypto_utils.py` lines 22-25) / `StockCacheManager` (`utils.py`
lines 16-18). -/
structure RateLimitInfo where
  calls : ℕ
  reset_time : ℚ
  limit : ℕ
  window : ℚ
deriving DecidableEq, Repr

/-- Core of `check_rate_limit` for one API entry (`crypto_utils.py`
lines 70-86, and identically `utils.py` lines 60-76 for the single
`yahoo_stock` entry): reset the counter when the window has elapsed,
then increment-and-allow while under the limit. -/
def check_rate_limit_one (info : RateLimitInfo) (now : ℚ) :
    Bool × RateLimitInfo :=
  let info1 :=
    if info.window < now - info.reset_time then
      { info with calls := 0, reset_time := now }
    else info
  if info1.calls < info1.limit then (true, { info1 with calls := info1.calls + 1 })
  else (false, info1)

/-- First value of an association list under a string key (Python dict
lookup restricted to the keys actually present). -/
def lookupStr (t : List (String × α)) (k : String) : Option α :=
  (t.find? (fun p => decide (p.1 = k))).map (fun p => p.2)

/-- In-place update of the entry of an association list at a key. -/
def updateStr (t : List (String × α)) (k : String) (v : α) :
    List (String × α) :=
  t.map (fun p => if p.1 = k then (k, v) else p)

/-- `CacheManager.check_rate_limit` (`crypto_utils.py` lines 65-86):
unknown API names are allowed unconditionally and leave the table
untouched; known ones go through `check_rate_limit_one` and the mutated
entry is written back. -/
def check_rate_limit (t : List (String × RateLimitInfo)) (api : String)
    (now : ℚ) : Bool × List (String × RateLimitInfo) :=
  match lookupStr t api with
  | none => (true, t)
  | some info =>
    let r := check_rate_limit_one info now
    (r.1, updateStr t api r.2)

/-- `CacheManager.wait_for_rate_limit` (`crypto_utils.py` lines 88-101):
after sleeping out the remaining window the counter is cleared and the
window start set to the time sampled before the sleep. -/
def wait_for_rate_limit (t : List (String × RateLimitInfo)) (api : String)
    (now : ℚ) : List (String × RateLimitInfo) :=
  match lookupStr t api with
  | none => t
  | some info =>
    if 0 < info.window - (now - info.reset_time) then
      updateStr t api { info with calls := 0, reset_time := now }
    else t

/-- The `rate_limits` table as initialised by `CacheManager.__init__`
(`crypto_utils.py` lines 22-25) at process start time `t0`. -/
def initial_crypto_rate_limits (t0 : ℚ) : List (String × RateLimitInfo) :=
  [("coingecko", { calls := 0, reset_time := t0, limit := 30, window := 60 }),
   ("yahoo", { calls := 0, reset_time := t0, limit := 2000, window := 3600 })]

/-- Run a sequence of `check_rate_limit_one` calls at the given times,
collecting the returned booleans. -/
def runCalls (info : RateLimitInfo) : List ℚ → List Bool × RateLimitInfo
  | [] => ([], info)
  | t :: ts =>
    let r := check_rate_limit_one info t
    let rest := runCalls r.2 ts
    (r.1 :: rest.1, rest.2)

/-- One stored cache entry: `{timestamp: ..., data: ...}` as written by
`CacheManager.set` / `StockCacheManager.set`. -/
structure CacheEntry (α : Type) where
  timestamp : ℚ
  data : α
deriving DecidableEq

/-- The cache directory, one JSON file per key; deserialisation is
elided (payloads are stored structurally). -/
def CacheStore (α : Type) : Type := String → Option (CacheEntry α)

/-- A cache directory with no files. -/
def emptyStore {α : Type} : CacheStore α := fun _ => none

/-- `CacheManager.set` / `StockCacheManager.set`: overwrite the entry,
stamping it with the current time. -/
def cache_set {α : Type} (st : CacheStore α) (k : String) (d : α)
    (now : ℚ) : CacheStore α :=
  fun q => if q = k then some { timestamp := now, data := d } else st q

/-- `_is_expired`: strictly older than `ttl` seconds. -/
def is_expired {α : Type} (e : CacheEntry α) (ttl now : ℚ) : Bool :=
  decide (ttl < now - e.timestamp)

/-- `CacheManager.get` / `StockCacheManager.get`: a missing or expired
entry reads as absent (corrupt payloads, also treated as a miss in the
source, are not representable here). -/
def cache_get {α : Type} (st : CacheStore α) (k : String) (ttl now : ℚ) :
    Option α :=
  match st k with
  | none => none
  | some e => if is_expired e ttl now then none else some e.data

/-- pandas `Series.diff()`: NaN at position 0, consecutive differences
afterwards. -/
def pyDiff (ps : List ℚ) : List (Option ℚ) :=
  match ps with
  | [] => []
  | _ :: rest => none :: List.zipWith (fun a b => some (a - b)) rest ps

/-- Every entry defined, or nothing. -/
def allSome : List (Option ℚ) → Option (List ℚ)
  | [] => some []
  | none :: _ => none
  | some a :: rest => (allSome rest).map (fun vs => a :: vs)

/-- pandas `Series.rolling(window=n).f()` with the default
`min_periods = n`: at each position the trailing `n`-entry window is
aggregated with `f` when the position has a full window of defined
entries, and is NaN otherwise (a NaN inside the window lowers the
observation count below `min_periods`). -/
def rollingApply (n : ℕ) (f : List ℚ → ℚ) (xs : List (Option ℚ)) :
    List (Option ℚ) :=
  (List.range xs.length).map (fun i =>
    if i + 1 < n then none
    else
      match allSome ((xs.drop (i + 1 - n)).take n) with
      | some vs => some (f vs)
      | none => none)

/-- Minimum of a nonempty list (`rolling(...).min()` aggregate). -/
def listMin (l : List ℚ) : ℚ :=
  match l with
  | [] => 0
  | x :: xs => xs.foldl min x

/-- Maximum of a nonempty list (`rolling(...).max()` aggregate). -/
def listMax (l : List ℚ) : ℚ :=
  match l with
  | [] => 0
  | x :: xs => xs.foldl max x

/-- `calculate_rsi` (`crypto_utils.py` lines 195-204, identical in
`utils.py` lines 93-102).  `delta.where(delta > 0, 0)` maps the leading
NaN of `diff` to 0 (a NaN comparison is False), so the gain and loss
series are fully defined and their rolling means are defined from
position `period - 1` on.  The float expression
`100 - 100 / (1 + gain/loss)` equals `100 * gain / (gain + loss)` for
nonnegative gain and loss: when `loss = 0` and `gain > 0` the IEEE
quotient `gain/loss` is +inf and the expression collapses to 100, which
the closed form also yields; when both are 0 the float result is NaN,
embedded as `none`. -/
def calculate_rsi (prices : List ℚ) (period : ℕ) : List (Option ℚ) :=
  let delta := pyDiff prices
  let gain := rollingApply period meanQ (delta.map (fun o =>
    match o with
    | some v => some (if 0 < v then v else 0)
    | none => some 0))
  let loss := rollingApply period meanQ (delta.map (fun o =>
    match o with
    | some v => some (if v < 0 then -v else 0)
    | none => some 0))
  List.zipWith (fun g l =>
    match g, l with
    | some g, some l =>
      if g = 0 ∧ l = 0 then none else some (100 * g / (g + l))
    | _, _ => none) gain loss

/-- `calculate_sma` (`crypto_utils.py` lines 206-210, `utils.py` lines
104-108): rolling mean of the closes. -/
def calculate_sma (prices : List ℚ) (period : ℕ) : List (Option ℚ) :=
  rollingApply period meanQ (prices.map some)

/-- Pointwise ternary zip used for the %K quotient. -/
def zipWith3 (f : Option ℚ → Option ℚ → Option ℚ → Option ℚ) :
    List (Option ℚ) → List (Option ℚ) → List (Option ℚ) → List (Option ℚ)
  | a :: as1, b :: bs, c :: cs => f a b c :: zipWith3 f as1 bs cs
  | _, _, _ => []

/-- `calculate_stoch_rsi` (`crypto_utils.py` lines 212-237, `utils.py`
lines 110-135): absent as a whole below `rsi_period + stoch_period`
input values; %K is the position of RSI inside its rolling range scaled
to 100 (NaN on a flat range, where the float quotient is 0/0); %K is
SMA-smoothed, %D is an SMA of smoothed %K, and the average is their
midpoint. -/
def calculate_stoch_rsi (prices : List ℚ) (rsi_period stoch_period smooth_k smooth_d : ℕ) :
    Option (List (Option ℚ) × List (Option ℚ) × List (Option ℚ)) :=
  if prices.length < rsi_period + stoch_period then none
  else
    let rsi := calculate_rsi prices rsi_period
    let rsi_low := rollingApply stoch_period listMin rsi
    let rsi_high := rollingApply stoch_period listMax rsi
    let stoch_k := zipWith3 (fun r lo hi =>
      match r, lo, hi with
      | some r, some lo, some hi =>
        if hi - lo = 0 then none else some ((r - lo) / (hi - lo) * 100)
      | _, _, _ => none) rsi rsi_low rsi_high
    let stoch_k_smooth := rollingApply smooth_k meanQ stoch_k
    let stoch_d := rollingApply smooth_d meanQ stoch_k_smooth
    let stoch_avg := List.zipWith (fun a b =>
      match a, b with
      | some a, some b => some ((a + b) / 2)
      | _, _ => none) stoch_k_smooth stoch_d
    some (stoch_k_smooth, stoch_d, stoch_avg)

/-- OHLCV columns used by the crypto screening path. -/
structure PriceData where
  close : List ℚ
  volume : List ℚ
deriving DecidableEq

/-- One entry of the `get_crypto_symbols` registry (`crypto_utils.py`
lines 660-689). -/
structure CryptoInfo where
  symbol : String
  coingecko_id : String
  name : String
deriving DecidableEq, Repr

/-- The static symbol registry of `get_crypto_symbols`. -/
def get_crypto_symbols : List (String × CryptoInfo) :=
  [("BTC", { symbol := "BTC-USD", coingecko_id := "bitcoin", name := "Bitcoin" }),
   ("ETH", { symbol := "ETH-USD", coingecko_id := "ethereum", name := "Ethereum" }),
   ("BNB", { symbol := "BNB-USD", coingecko_id := "binancecoin", name := "Binance Coin" }),
   ("ADA", { symbol := "ADA-USD", coingecko_id := "cardano", name := "Cardano" }),
   ("XRP", { symbol := "XRP-USD", coingecko_id := "ripple", name := "Ripple" }),
   ("SOL", { symbol := "SOL-USD", coingecko_id := "solana", name := "Solana" }),
   ("DOT", { symbol := "DOT-USD", coingecko_id := "polkadot", name := "Polkadot" }),
   ("DOGE", { symbol := "DOGE-USD", coingecko_id := "dogecoin", name := "Dogecoin" }),
   ("AVAX", { symbol := "AVAX-USD", coingecko_id := "avalanche-2", name := "Avalanche" }),
   ("LTC", { symbol := "LTC-USD", coingecko_id := "litecoin", name := "Litecoin" }),
   ("LINK", { symbol := "LINK-USD", coingecko_id := "chainlink", name := "Chainlink" }),
   ("MATIC", { symbol := "MATIC-USD", coingecko_id := "matic-network", name := "Polygon" }),
   ("ALGO", { symbol := "ALGO-USD", coingecko_id := "algorand", name := "Algorand" }),
   ("VET", { symbol := "VET-USD", coingecko_id := "vechain", name := "VeChain" }),
   ("ICP", { symbol := "ICP-USD", coingecko_id := "internet-computer", name := "Internet Computer" }),
   ("FIL", { symbol := "FIL-USD", coingecko_id := "filecoin", name := "Filecoin" }),
   ("TRX", { symbol := "TRX-USD", coingecko_id := "tron", name := "TRON" }),
   ("ETC", { symbol := "ETC-USD", coingecko_id := "ethereum-classic", name := "Ethereum Classic" }),
   ("XLM", { symbol := "XLM-USD", coingecko_id := "stellar", name := "Stellar" }),
   ("THETA", { symbol := "THETA-USD", coingecko_id := "theta-token", name := "Theta Network" })]

/-- The `period_map` of `screen_cryptocurrency` (`crypto_utils.py`
lines 474-481). -/
def crypto_period_map (timeframe : String) : String :=
  if timeframe = "15m" then "7d"
  else if timeframe = "1h" then "60d"
  else if timeframe = "4h" then "120d"
  else if timeframe = "1d" then "2y"
  else if timeframe = "1W" then "5y"
  else "60d"

/-- The per-interval cache TTL table (`crypto_utils.py` lines 139-146
and `utils.py` lines 202-209). -/
def ttl_map_interval (interval : String) : ℚ :=
  if interval = "15m" then 900
  else if interval = "1h" then 3600
  else if interval = "4h" then 14400
  else if interval = "1d" then 86400
  else if interval = "1W" then 604800
  else 3600

/-- Upstream collaborators of the crypto path: the Yahoo price-history
endpoint, the CoinGecko batched market-cap endpoint, and the CoinGecko
single-id market-cap endpoint.  `none` models a failed call (non-200
response, empty payload or a raised exception). -/
structure CryptoEnv where
  priceUpstream : String → String → String → Option PriceData
  mcapBatchUpstream : List String → Option (List (String × ℚ))
  mcapSingleUpstream : String → Option ℚ

/-- The process-wide mutable state of `crypto_utils`: the JSON cache
directory (price payloads and `market_cap_...` payloads live under
disjoint key prefixes, so they are modelled as two typed stores) and the
rate-limit table of the global `cache_manager`. -/
structure CryptoState where
  priceCache : CacheStore PriceData
  mcapCache : CacheStore ℚ
  rate : List (String × RateLimitInfo)

/-- `get_crypto_price` (`crypto_utils.py` lines 131-193): cache lookup
under the per-interval TTL, else a rate-limited upstream call whose
successful result is written through to the cache.  The sqlite fallback
of the stock variant does not exist on this path; cache round-trip
serialisation is elided. -/
def get_crypto_price_model (env : CryptoEnv) (st : CryptoState)
    (symbol period interval : String) (now : ℚ) :
    Option PriceData × CryptoState :=
  let key := "yahoo_" ++ symbol ++ "_" ++ period ++ "_" ++ interval
  match cache_get st.priceCache key (ttl_map_interval interval) now with
  | some d => (some d, st)
  | none =>
    let chk := check_rate_limit st.rate "yahoo" now
    let rate2 := if chk.1 then chk.2 else wait_for_rate_limit chk.2 "yahoo" now
    let st1 : CryptoState := { st with rate := rate2 }
    match env.priceUpstream symbol period interval with
    | none => (none, st1)
    | some d =>
      (some d, { st1 with priceCache := cache_set st1.priceCache key d now })

/-- `get_crypto_market_cap` (`crypto_utils.py` lines 340-378): 300 s
cache, rate-limited single-id upstream call, write-through on success,
0 on failure. -/
def get_crypto_market_cap_model (env : CryptoEnv) (st : CryptoState)
    (cid : String) (now : ℚ) : ℚ × CryptoState :=
  let key := "market_cap_" ++ cid
  match cache_get st.mcapCache key 300 now with
  | some v => (v, st)
  | none =>
    let chk := check_rate_limit st.rate "coingecko" now
    let rate2 := if chk.1 then chk.2 else wait_for_rate_limit chk.2 "coingecko" now
    let st1 : CryptoState := { st with rate := rate2 }
    match env.mcapSingleUpstream cid with
    | some mc =>
      (mc, { st1 with mcapCache := cache_set st1.mcapCache key mc now })
    | none => (0, st1)

/-- Association-list lookup with a default, modelling
`data.get(cid, {}).get('usd_market_cap', 0)` on the decoded response. -/
def lookupD (l : List (String × ℚ)) (k : String) (d : ℚ) : ℚ :=
  (lookupStr l k).getD d

/-- `get_multiple_crypto_market_caps` (`crypto_utils.py` lines 380-439):
partition the ids into cached and uncached, short-circuit when
everything is cached, otherwise issue one rate-limited batched call for
the uncached ids; on success each resolved value (0 when the response
omits the id) is appended to the result map and written back to the
cache individually, on failure only the cached partial results are
returned. -/
def get_multiple_crypto_market_caps_model (env : CryptoEnv)
    (st : CryptoState) (ids : List String) (now : ℚ) :
    List (String × ℚ) × CryptoState :=
  if ids = [] then ([], st)
  else
    let cachedOf : String → Option ℚ := fun cid =>
      cache_get st.mcapCache ("market_cap_" ++ cid) 300 now
    let results := ids.filterMap (fun cid =>
      (cachedOf cid).map (fun v => (cid, v)))
    let uncached := ids.filter (fun cid => (cachedOf cid).isNone)
    if uncached = [] then (results, st)
    else
      let chk := check_rate_limit st.rate "coingecko" now
      let rate2 := if chk.1 then chk.2 else wait_for_rate_limit chk.2 "coingecko" now
      let st1 : CryptoState := { st with rate := rate2 }
      match env.mcapBatchUpstream uncached with
      | some resp =>
        let results2 := results ++ uncached.map (fun cid =>
          (cid, lookupD resp cid 0))
        let cache2 := uncached.foldl (fun c cid =>
          cache_set c ("market_cap_" ++ cid) (lookupD resp cid 0) now)
          st1.mcapCache
        (results2, { st1 with mcapCache := cache2 })
      | none => (results, st1)

/-- Python `round(x, d)` on a rational (round half up; the IEEE
ties-to-even behaviour at exact half-ulp ties is not distinguished
here). -/
def roundTo (d : ℕ) (x : ℚ) : ℚ :=
  ((⌊x * (10 : ℚ) ^ d + 1 / 2⌋ : ℤ) : ℚ) / (10 : ℚ) ^ d

/-- `round` lifted over NaN. -/
def optRound (d : ℕ) (o : Option ℚ) : Option ℚ := o.map (roundTo d)

/-- Python `round(x, d) if x else None`: `None` and the falsy 0.0 both
become `None`. -/
def truthyRound (d : ℕ) (o : Option ℚ) : Option ℚ :=
  match o with
  | some v => if v = 0 then none else some (roundTo d v)
  | none => none

/-- Pure intermediate values of `screen_cryptocurrency` up to (and
excluding) the market-cap resolution (`crypto_utils.py` lines 486-513):
the length guards, the indicator columns, the Stochastic signal and the
momentum-window averages. -/
structure CryptoPre where
  stoch_signal : Signal
  stoch_current : Option ℚ
  stoch_avg_oversold : Option ℚ
  stoch_avg_overbought : Option ℚ
  current_rsi_avg : Option ℚ
  prev_rsi_avg : Option ℚ
  current_sma_avg : Option ℚ
  prev_sma_avg : Option ℚ
  rsi_momentum : Option ℚ
  sma_momentum : Option ℚ
  current_price : ℚ
  avg_volume : ℚ

/-- Guarded pure analysis of one crypto symbol (`crypto_utils.py` lines
486-513): requires more than 20 bars; requires the Stochastic RSI
columns (accessing the missing `stoch_avg` column on a short series
raises a KeyError that the enclosing handler turns into a skipped
symbol); requires `2 * candles_per_period` bars for the momentum
windows; then computes both window averages, the momentum differences,
the latest close and the 30-bar average volume. -/
def crypto_pre_analysis (data : PriceData) (timeframe : String)
    (momentum_days rsi_period sma_period : ℕ) : Option CryptoPre :=
  if data.close.length ≤ 20 then none
  else
    let rsi := calculate_rsi data.close rsi_period
    let sma := calculate_sma data.close sma_period
    match calculate_stoch_rsi data.close 14 14 3 3 with
    | none => none
    | some kda =>
      let stoch := analyze_stoch_signal kda.2.2 5
      let cpp := get_candles_per_period timeframe momentum_days
      if data.close.length < cpp * 2 then none
      else
        let current_rsi_avg := meanOpt (tailN rsi cpp)
        let current_sma_avg := meanOpt (tailN sma cpp)
        let prev_rsi_avg := meanOpt (pySlice rsi (-(2 * (cpp : ℤ))) (-(cpp : ℤ)))
        let prev_sma_avg := meanOpt (pySlice sma (-(2 * (cpp : ℤ))) (-(cpp : ℤ)))
        some
          { stoch_signal := stoch.1
            stoch_current := stoch.2.1
            stoch_avg_oversold := stoch.2.2.1
            stoch_avg_overbought := stoch.2.2.2
            current_rsi_avg := current_rsi_avg
            prev_rsi_avg := prev_rsi_avg
            current_sma_avg := current_sma_avg
            prev_sma_avg := prev_sma_avg
            rsi_momentum := optSub current_rsi_avg prev_rsi_avg
            sma_momentum := optSub current_sma_avg prev_sma_avg
            current_price := data.close.getLast?.getD 0
            avg_volume := meanQ (tailN data.volume 30) }

/-- One row of the crypto screening output (`crypto_utils.py` lines
560-584); `timestamp` carries the `datetime.now()` stamp. -/
structure CryptoResult where
  symbol : String
  name : String
  signal : String
  signal_color : String
  confidence : String
  score : Option ℚ
  current_price : ℚ
  rsi_momentum : Option ℚ
  sma_momentum : Option ℚ
  rsi_current_avg : Option ℚ
  rsi_prev_avg : Option ℚ
  sma_current_avg : Option ℚ
  sma_prev_avg : Option ℚ
  avg_volume : ℚ
  market_cap : ℚ
  timeframe : String
  analysis_period : ℕ
  stoch_signal : Signal
  stoch_current : Option ℚ
  stoch_avg_oversold : Option ℚ
  stoch_avg_overbought : Option ℚ
  stoch_score : ℤ
  timestamp : ℚ

/-- Scoring and result construction of `screen_cryptocurrency`
(`crypto_utils.py` lines 521-584): the discrete Stochastic score, the
`50% momentum + 30% volume + 20% stoch` composite (NaN momentum makes
the composite NaN, since float comparisons with NaN are False but float
arithmetic propagates it), the threshold-based signal label, and the
rounded report fields. -/
def assemble_crypto_result (pre : CryptoPre) (crypto_symbol crypto_name : String)
    (timeframe : String) (momentum_days : ℕ) (market_cap : ℚ) (now : ℚ) :
    CryptoResult :=
  let stoch_score : ℤ :=
    if pre.stoch_signal = Signal.BUY then 1
    else if pre.stoch_signal = Signal.SELL then -1
    else 0
  let momentum_score : Option ℚ :=
    match pre.rsi_momentum, pre.sma_momentum with
    | some r, some s => some ((r + s) / 2)
    | _, _ => none
  let volume_score : ℚ := min (pre.avg_volume / 100000000) 10 / 10
  let total_score : Option ℚ :=
    match momentum_score with
    | some m =>
      some (m * (1 / 2) + volume_score * (3 / 10) + (stoch_score : ℚ) * (1 / 5))
    | none => none
  let sig :=
    if optGtB pre.rsi_momentum (some 5) && optGtB pre.sma_momentum (some 0) then
      ("STRONG BUY", "g", "High")
    else if optGtB pre.rsi_momentum (some 0) && optGtB pre.sma_momentum (some 0) then
      ("BUY", "y", "Medium")
    else if optLtB pre.rsi_momentum (some (-5)) || optLtB pre.sma_momentum (some 0) then
      ("SELL", "r", "High")
    else if optLtB pre.rsi_momentum (some 0) then
      ("WEAK SELL", "o", "Medium")
    else ("HOLD", "y", "Low")
  { symbol := crypto_symbol
    name := crypto_name
    signal := sig.1
    signal_color := sig.2.1
    confidence := sig.2.2
    score := optRound 2 total_score
    current_price := pre.current_price
    rsi_momentum := optRound 2 pre.rsi_momentum
    sma_momentum := optRound 2 pre.sma_momentum
    rsi_current_avg := optRound 1 pre.current_rsi_avg
    rsi_prev_avg := optRound 1 pre.prev_rsi_avg
    sma_current_avg := optRound 2 pre.current_sma_avg
    sma_prev_avg := optRound 2 pre.prev_sma_avg
    avg_volume := pre.avg_volume
    market_cap := market_cap
    timeframe := timeframe
    analysis_period := momentum_days
    stoch_signal := pre.stoch_signal
    stoch_current := truthyRound 2 pre.stoch_current
    stoch_avg_oversold := truthyRound 2 pre.stoch_avg_oversold
    stoch_avg_overbought := truthyRound 2 pre.stoch_avg_overbought
    stoch_score := stoch_score
    timestamp := now }

/-- `screen_cryptocurrency` (`crypto_utils.py` lines 447-600): registry
lookup, rate-limited cached fetch, guarded pure analysis, market cap
from the pre-fetched batch dictionary when it is nonempty and contains
the id (Python truthiness of `market_caps_cache`) and from the cached
single-id endpoint otherwise, then result assembly.  `None` is a
skipped symbol. -/
def screen_cryptocurrency_model (env : CryptoEnv) (st : CryptoState)
    (crypto_symbol timeframe : String)
    (momentum_days rsi_period sma_period : ℕ)
    (mcaps : List (String × ℚ)) (now : ℚ) :
    Option CryptoResult × CryptoState :=
  match lookupStr get_crypto_symbols crypto_symbol with
  | none => (none, st)
  | some info =>
    let fetched := get_crypto_price_model env st info.symbol
      (crypto_period_map timeframe) timeframe now
    match fetched.1 with
    | none => (none, fetched.2)
    | some data =>
      match crypto_pre_analysis data timeframe momentum_days rsi_period sma_period with
      | none => (none, fetched.2)
      | some pre =>
        let mc :=
          if mcaps ≠ [] ∧ (lookupStr mcaps info.coingecko_id).isSome then
            ((lookupStr mcaps info.coingecko_id).getD 0, fetched.2)
          else get_crypto_market_cap_model env fetched.2 info.coingecko_id now
        (some (assemble_crypto_result pre crypto_symbol info.name timeframe
          momentum_days mc.1 now), mc.2)

/-- Stable insertion of a result into a list kept in descending score
order, modelling `results.sort(key=..., reverse=True)` (float
comparison on possibly-NaN scores, NaN comparing False). -/
def insertByScoreDesc (r : CryptoResult) : List CryptoResult → List CryptoResult
  | [] => [r]
  | x :: xs =>
    if optLtB x.score r.score then r :: x :: xs else x :: insertByScoreDesc r xs

/-- Descending-by-score sort of the collected results. -/
def sortByScoreDesc (l : List CryptoResult) : List CryptoResult :=
  l.foldr insertByScoreDesc []

/-- One iteration of the `screen_multiple_cryptocurrencies` loop
(`crypto_utils.py` lines 639-652): screen the symbol against the
current state and append the row when one is produced (the try/except
around the call cannot fire in this total model). -/
def screen_loop_step (env : CryptoEnv) (tf : String) (md rp sp : ℕ)
    (mcaps : List (String × ℚ)) (now : ℚ)
    (acc : List CryptoResult × CryptoState) (s : String) :
    List CryptoResult × CryptoState :=
  let r := screen_cryptocurrency_model env acc.2 s tf md rp sp mcaps now
  (match r.1 with
   | some res => acc.1 ++ [res]
   | none => acc.1, r.2)

/-- `screen_multiple_cryptocurrencies` (`crypto_utils.py` lines
602-658): filter the symbols against the registry, batch-resolve the
market caps once, screen each valid symbol in order (the pacing sleep
is elided), and sort the qualifying rows by score descending. -/
def screen_multiple_cryptocurrencies_model (env : CryptoEnv)
    (st : CryptoState) (crypto_symbols : List String) (timeframe : String)
    (momentum_days rsi_period sma_period : ℕ) (now : ℚ) :
    List CryptoResult × CryptoState :=
  if crypto_symbols = [] then ([], st)
  else
    let valid := crypto_symbols.filter (fun s =>
      (lookupStr get_crypto_symbols s).isSome)
    let ids := crypto_symbols.filterMap (fun s =>
      (lookupStr get_crypto_symbols s).map (fun i => i.coingecko_id))
    if valid = [] then ([], st)
    else
      let batch := get_multiple_crypto_market_caps_model env st ids now
      let looped := valid.foldl
        (screen_loop_step env timeframe momentum_days rsi_period sma_period
          batch.1 now) ([], batch.2)
      (sortByScoreDesc looped.1, looped.2)

/-- The dictionary built by `get_stock_info` (`utils.py` lines 323-341). -/
structure StockInfo where
  symbol : String
  market_cap : ℚ
  avg_volume : ℚ
deriving DecidableEq, Repr

/-- Outcome of the Yahoo `Ticker(symbol).info` call: the
`(marketCap, averageVolume)` pair on success (each already defaulted to
0 by `info.get(..., 0)` when the field is missing), `failure` when the
call raises. -/
inductive InfoUpstream where
  | success (market_cap avg_volume : ℚ) : InfoUpstream
  | failure : InfoUpstream

/-- `get_stock_info` (`utils.py` lines 299-341): 6-hour cached lookup;
on a miss the live call either succeeds, or raises, in which case a
`{market_cap: 0, avg_volume: 0}` row is built; either way the result is
written to the cache.  The rate-limit check before the live call only
throttles and is modelled separately (`check_rate_limit_one`). -/
def get_stock_info (up : InfoUpstream) (cache : CacheStore StockInfo)
    (symbol : String) (now : ℚ) : StockInfo × CacheStore StockInfo :=
  let key := "stock_info_" ++ symbol
  match cache_get cache key 21600 now with
  | some info => (info, cache)
  | none =>
    match up with
    | InfoUpstream.success mc vol =>
      let r : StockInfo := { symbol := symbol, market_cap := mc, avg_volume := vol }
      (r, cache_set cache key r now)
    | InfoUpstream.failure =>
      let r : StockInfo := { symbol := symbol, market_cap := 0, avg_volume := 0 }
      (r, cache_set cache key r now)

/-- Outcome of the per-symbol coarse-filter step at the top of the
`screen_stocks` loop (`utils.py` lines 358-364): `skipped` is the
`continue` before any price-history fetch, `fetched` marks that the
loop went on to call `fetch_stock_data`. -/
inductive StockStep where
  | skipped : StockStep
  | fetched (info : StockInfo) : StockStep
deriving DecidableEq

/-- The coarse-filter prefix of one `screen_stocks` loop iteration
(`utils.py` lines 358-364): resolve the (cached) stock info, then skip
the symbol when its average volume or market cap is below the
configured minimum, before fetching any price history. -/
def screen_stocks_coarse_step (up : InfoUpstream)
    (cache : CacheStore StockInfo) (symbol : String)
    (min_volume min_market_cap : ℚ) (now : ℚ) :
    StockStep × CacheStore StockInfo :=
  let r := get_stock_info up cache symbol now
  if r.1.avg_volume < min_volume ∨ r.1.market_cap < min_market_cap then
    (StockStep.skipped, r.2)
  else (StockStep.fetched r.1, r.2)

/-- A series with a single defined value among six entries. -/
def c4_series : List (Option ℚ) := [none, none, none, none, none, some 50]

/-- An RSI-column series of 25 bars: 3 low values followed by 22 high
ones. -/
def c1_rsi : List (Option ℚ) :=
  List.replicate 3 (some 10) ++ List.replicate 22 (some 50)

/-- The synthetic oversold-excursion series of the spec. -/
def c7_series : List (Option ℚ) :=
  [some 25, some 18, some 15, some 19, some 22, some 40]

/-- Environment in which every upstream call fails. -/
def envFail : CryptoEnv :=
  { priceUpstream := fun _ _ _ => none
    mcapBatchUpstream := fun _ => none
    mcapSingleUpstream := fun _ => none }

/-- Process state with empty caches and a fresh rate-limit table. -/
def freshState : CryptoState :=
  { priceCache := emptyStore
    mcapCache := emptyStore
    rate := initial_crypto_rate_limits 0 }

/-- State holding one validly cached market cap. -/
def c2WitnessState : CryptoState :=
  { priceCache := emptyStore
    mcapCache := cache_set emptyStore "market_cap_bitcoin" 777 0
    rate := initial_crypto_rate_limits 0 }

/-- The BTC entry of the symbol registry. -/
def btcInfo : CryptoInfo :=
  { symbol := "BTC-USD", coingecko_id := "bitcoin", name := "Bitcoin" }

/-- State with the BTC daily price history and the bitcoin market cap
validly cached at time 0. -/
def c8WitnessState : CryptoState :=
  { priceCache := cache_set emptyStore "yahoo_BTC-USD_2y_1d"
      { close := [1], volume := [1] } 0
    mcapCache := cache_set emptyStore "market_cap_bitcoin" 5 0
    rate := initial_crypto_rate_limits 0 }

section Lemmas

/-- The mean of a one-entry pandas window is that entry (NaN included). -/
lemma meanOpt_singleton (o : Option ℚ) : meanOpt [o] = o := by
  cases o with
  | none => rfl
  | some v => simp [meanOpt, meanQ]

/-- Reading back the key just written: present until `ttl` seconds after
the write time, absent afterwards. -/
lemma cache_get_set_same {α : Type} (st : CacheStore α) (k : String) (d : α)
    (t ttl now : ℚ) :
    cache_get (cache_set st k d t) k ttl now =
      if ttl < now - t then none else some d := by
  have hk : cache_set st k d t k = some { timestamp := t, data := d } := by
    unfold cache_set
    simp
  unfold cache_get
  rw [hk]
  dsimp only [is_expired]
  by_cases h : ttl < now - t
  · simp [h]
  · simp [h]

end Lemmas

/-- Claim C10: an `api_name` that is not a key of the configured
`rate_limits` table makes `check_rate_limit` return True and leaves the
whole table (every counter and window start) unchanged. -/
theorem c10_unknown_api_frame (t : List (String × RateLimitInfo)) (api : String)
    (now : ℚ) (h : lookupStr t api = none) :
    check_rate_limit t api now = (true, t) := by
  unfold check_rate_limit
  rw [h]

/-- Witness for C10: the freshly initialised table does not know the
API name "binance". -/
theorem c10_unknown_api_frame_witness :
    check_rate_limit (initial_crypto_rate_limits 0) "binance" 5 =
      (true, initial_crypto_rate_limits 0) :=
  c10_unknown_api_frame (initial_crypto_rate_limits 0) "binance" 5 (by decide)

/-- Claim C6: `set` followed by `get` under a TTL at least as large as
the elapsed time returns the stored payload, while `get` with a zero
TTL after any strictly positive elapsed time returns absent. -/
theorem c6_cache_roundtrip {α : Type} (st : CacheStore α) (k : String) (d : α)
    (t ttl dt : ℚ) :
    (dt ≤ ttl → cache_get (cache_set st k d t) k ttl (t + dt) = some d) ∧
    (0 < dt → cache_get (cache_set st k d t) k 0 (t + dt) = none) := by
  have helapsed : t + dt - t = dt := by ring
  constructor
  · intro h
    rw [cache_get_set_same, helapsed, if_neg (not_lt.mpr h)]
  · intro h
    rw [cache_get_set_same, helapsed, if_pos h]

/-- Witness for C6 at a concrete store, key, payload and clock. -/
theorem c6_cache_roundtrip_witness :
    cache_get (cache_set (emptyStore (α := ℚ)) "k" 37 0) "k" 5 (0 + 1) = some 37 ∧
    cache_get (cache_set (emptyStore (α := ℚ)) "k" 37 0) "k" 0 (0 + 1) = none :=
  ⟨(c6_cache_roundtrip emptyStore "k" 37 0 5 1).1 (by norm_num),
   (c6_cache_roundtrip emptyStore "k" 37 0 5 1).2 (by norm_num)⟩

/-- Counterexample to C4: a six-entry series with only one defined
value passes the analyzer's guard (which tests the raw length, not the
defined count), and the returned `current` is the defined last value,
not absent as the claim requires for fewer than `lookback + 1` defined
values. -/
theorem c4_counterexample :
    definedCount c4_series < 5 + 1 ∧
    analyze_stoch_signal c4_series 5 = (Signal.HOLD, some 50, none, none) ∧
    ¬ (analyze_stoch_signal c4_series 5).2.1 = none := by
  decide

/-- Claim C4 amended: the insufficient-data guard of
`analyze_stoch_signal` is on the raw series length (undefined leading
values included), not on the count of defined values: below
`lookback + 1` entries the analyzer returns HOLD with every reference
value absent, and from `lookback + 1` entries on it proceeds, reporting
the raw last entry as `current`. -/
theorem c4_amended_length_guard (s : List (Option ℚ)) (n : ℕ) :
    (s.length < n + 1 →
      analyze_stoch_signal s n = (Signal.HOLD, none, none, none)) ∧
    (n + 1 ≤ s.length →
      (analyze_stoch_signal s n).2.1 = lastOpt s) := by
  constructor
  · intro h
    unfold analyze_stoch_signal
    rw [if_pos h]
  · intro h
    unfold analyze_stoch_signal
    rw [if_neg (by omega)]

/-- Witness for the amended C4, exercising both the short-series branch
and the long-enough branch. -/
theorem c4_amended_length_guard_witness :
    analyze_stoch_signal [some (25 : ℚ)] 5 = (Signal.HOLD, none, none, none) ∧
    (analyze_stoch_signal c4_series 5).2.1 = lastOpt c4_series :=
  ⟨(c4_amended_length_guard [some 25] 5).1 (by decide),
   (c4_amended_length_guard c4_series 5).2 (by decide)⟩

section WeeklyWindow

/-- The weekly branch of `screen_stocks` averages over exactly the last
bar and the bar before it, whatever `momentum_days` is. -/
lemma momentum_weekly_window (l sma : List (Option ℚ)) (a b : Option ℚ)
    (md : ℕ) :
    (momentumCalcStock (l ++ [a, b]) sma "1W" md).current_rsi_avg = b ∧
    (momentumCalcStock (l ++ [a, b]) sma "1W" md).prev_rsi_avg = a := by
  have htail : tailN (l ++ [a, b]) 1 = [b] := by
    unfold tailN
    have hsplit : l ++ [a, b] = (l ++ [a]) ++ [b] := by simp
    rw [hsplit]
    have hlen2 : ((l ++ [a]) ++ [b]).length - 1 = (l ++ [a]).length := by simp
    rw [hlen2, List.drop_left]
  have hslice : pySlice (l ++ [a, b]) (-2) (-1) = [a] := by
    unfold pySlice pyIdx
    have hla : ((if (-2 : ℤ) < 0 then ((-2 : ℤ) + ((l ++ [a, b]).length : ℤ)).toNat
        else min (-2 : ℤ).toNat (l ++ [a, b]).length) : ℕ) = l.length := by
      rw [if_pos (by norm_num)]
      simp only [List.length_append, List.length_cons, List.length_nil]
      omega
    have hlb : ((if (-1 : ℤ) < 0 then ((-1 : ℤ) + ((l ++ [a, b]).length : ℤ)).toNat
        else min (-1 : ℤ).toNat (l ++ [a, b]).length) : ℕ) = l.length + 1 := by
      rw [if_pos (by norm_num)]
      simp only [List.length_append, List.length_cons, List.length_nil]
      omega
    rw [hla, hlb]
    show List.take (l.length + 1 - l.length) (List.drop l.length (l ++ [a, b])) = [a]
    rw [List.drop_left l [a, b]]
    simp
  have hguard : total_candles_stock "1W" md ≤ (l ++ [a, b]).length := by
    have : total_candles_stock "1W" md = 2 := rfl
    rw [this]
    simp
  have h2 : 2 ≤ (l ++ [a, b]).length := by simp
  unfold momentumCalcStock
  rw [if_pos hguard, if_pos rfl, if_pos h2]
  dsimp only
  rw [htail, hslice, meanOpt_singleton, meanOpt_singleton]
  exact ⟨rfl, rfl⟩

end WeeklyWindow

/-- Counterexample to C3: in the crypto path the weekly per-window bar
count is `max 1 (momentum_days / 7)` and does depend on
`momentum_days`: at `momentum_days = 30` each window is 4 bars, not the
single bar (2 bars in total) the claim requires. -/
theorem c3_counterexample :
    get_candles_per_period "1W" 30 = 4 ∧
    ¬ get_candles_per_period "1W" 30 = 1 := by
  decide

/-- Claim C3 amended: in the stock screener the weekly comparison uses
exactly 2 bars in total (the last bar against the bar before it),
independent of `momentum_days`; in the crypto path the weekly
per-window bar count is `max 1 (momentum_days / 7)` — 1 bar per window
only for `momentum_days` below 14; the hourly, 4-hour and daily
per-period bar counts are `momentum_days` times 24, 6, 1 in both
paths. -/
theorem c3_amended_candles_per_period (md : ℕ) (l sma : List (Option ℚ))
    (a b : Option ℚ) :
    total_candles_stock "1W" md = 2 ∧
    (momentumCalcStock (l ++ [a, b]) sma "1W" md).current_rsi_avg = b ∧
    (momentumCalcStock (l ++ [a, b]) sma "1W" md).prev_rsi_avg = a ∧
    total_candles_stock "1h" md = md * 24 ∧
    total_candles_stock "4h" md = md * 6 ∧
    total_candles_stock "1d" md = md * 1 ∧
    get_candles_per_period "1h" md = md * 24 ∧
    get_candles_per_period "4h" md = md * 6 ∧
    get_candles_per_period "1d" md = md ∧
    get_candles_per_period "1W" md = max 1 (md / 7) ∧
    (md < 14 → get_candles_per_period "1W" md = 1) := by
  refine ⟨rfl, (momentum_weekly_window l sma a b md).1,
    (momentum_weekly_window l sma a b md).2, rfl, rfl, rfl, rfl, rfl, rfl, rfl, ?_⟩
  intro h
  show max 1 (md / 7) = 1
  omega

/-- Witness for the amended C3 at a concrete weekly series and
`momentum_days = 30`. -/
theorem c3_amended_candles_per_period_witness :
    (momentumCalcStock ([some 1, some 2] ++ [some 3, some 4])
      ([some 1, some 2] ++ [some 3, some 4]) "1W" 30).current_rsi_avg = some 4 ∧
    get_candles_per_period "1W" 13 = 1 :=
  ⟨(c3_amended_candles_per_period 30 [some 1, some 2]
      ([some 1, some 2] ++ [some 3, some 4]) (some 3) (some 4)).2.1,
   (c3_amended_candles_per_period 13 [] [] none none).2.2.2.2.2.2.2.2.2.2 (by decide)⟩

section ReplicateMean

/-- Defined-value extraction of an all-defined constant series. -/
lemma filterMap_id_replicate_some (n : ℕ) (a : ℚ) :
    (List.replicate n (some a)).filterMap id = List.replicate n a := by
  induction n with
  | zero => rfl
  | succ m ih => simp [List.replicate_succ, ih]

/-- The mean of a nonempty constant window is the constant. -/
lemma meanOpt_replicate_some (n : ℕ) (a : ℚ) (h : n ≠ 0) :
    meanOpt (List.replicate n (some a)) = some a := by
  obtain ⟨m, rfl⟩ : ∃ m, n = m + 1 := ⟨n - 1, by omega⟩
  unfold meanOpt
  rw [filterMap_id_replicate_some, List.replicate_succ]
  show some (meanQ (a :: List.replicate m a)) = some a
  congr 1
  unfold meanQ
  rw [← List.replicate_succ, List.sum_replicate, List.length_replicate,
    nsmul_eq_mul]
  rw [mul_div_cancel_left₀]
  exact_mod_cast Nat.succ_ne_zero m

end ReplicateMean

/-- Counterexample to C1: with interval `1d` and `momentum_days = 22`
(so `candles_per_period = 22`) a 25-bar series has fewer than
`2 * candles_per_period` bars, yet `screen_stocks` does run the
window-based averaging (its guard only asks for `candles_per_period`
bars): the momentum flag comes out True and the momentum value is 40,
not the all-False / zero degenerate fallback the claim requires below
`2 * candles_per_period` bars. -/
theorem c1_counterexample :
    c1_rsi.length < 2 * total_candles_stock "1d" 22 ∧
    (momentumCalcStock c1_rsi c1_rsi "1d" 22).rsi_momentum_flag = true ∧
    (momentumCalcStock c1_rsi c1_rsi "1d" 22).rsi_momentum_val = some 40 := by
  have hcur : meanOpt (tailN c1_rsi (total_candles_stock "1d" 22)) = some 50 := by
    have htail : tailN c1_rsi (total_candles_stock "1d" 22) =
        List.replicate 22 (some 50) := by decide
    rw [htail, meanOpt_replicate_some 22 50 (by norm_num)]
  have hprev : meanOpt (pySlice c1_rsi
      (-(2 * ((total_candles_stock "1d" 22 : ℕ) : ℤ)))
      (-((total_candles_stock "1d" 22 : ℕ) : ℤ))) = some 10 := by
    have hslice : pySlice c1_rsi
        (-(2 * ((total_candles_stock "1d" 22 : ℕ) : ℤ)))
        (-((total_candles_stock "1d" 22 : ℕ) : ℤ)) =
        List.replicate 3 (some 10) := by decide
    rw [hslice, meanOpt_replicate_some 3 10 (by norm_num)]
  have hm : momentumCalcStock c1_rsi c1_rsi "1d" 22 =
      { rsi_momentum_flag := optGtB (some 50) (some 10),
        sma_momentum_flag := optGtB (some 50) (some 10),
        current_rsi_avg := some 50, prev_rsi_avg := some 10,
        current_sma_avg := some 50, prev_sma_avg := some 10 } := by
    simp only [momentumCalcStock]
    rw [if_pos (show total_candles_stock "1d" 22 ≤ c1_rsi.length by decide)]
    rw [if_neg (show ¬ ("1d" = "1W") by decide)]
    rw [hcur, hprev]
  refine ⟨by decide, ?_, ?_⟩
  · rw [hm]
    show optGtB (some 50) (some 10) = true
    unfold optGtB
    exact decide_eq_true (by norm_num)
  · rw [MomentumResult.rsi_momentum_val, hm]
    show optSub (some 50) (some 10) = some 40
    unfold optSub
    norm_num

/-- Claim C1 amended: in the stock screener the degenerate fallback
(both momentum flags False, `current_avg` and `prev_avg` both the
single latest indicator value, hence momentum exactly 0 whenever that
value is defined) applies exactly when the series has fewer than
`candles_per_period` bars — not `2 * candles_per_period`; from
`candles_per_period` bars on, window-based averaging is used (with a
truncated, possibly empty previous window below
`2 * candles_per_period` bars).  In the crypto screener a series with
fewer than `2 * candles_per_period` bars produces no result at all
instead of a degenerate one. -/
theorem c1_amended_momentum_fallback (rsi sma : List (Option ℚ))
    (interval : String) (md : ℕ) (data : PriceData) (tf : String)
    (rp sp : ℕ) :
    (rsi.length < total_candles_stock interval md →
      momentumCalcStock rsi sma interval md =
        { rsi_momentum_flag := false, sma_momentum_flag := false,
          current_rsi_avg := lastOpt rsi, prev_rsi_avg := lastOpt rsi,
          current_sma_avg := lastOpt sma, prev_sma_avg := lastOpt sma }) ∧
    (∀ v : ℚ, rsi.length < total_candles_stock interval md →
      lastOpt rsi = some v →
      (momentumCalcStock rsi sma interval md).rsi_momentum_val = some 0) ∧
    (total_candles_stock interval md ≤ rsi.length → interval ≠ "1W" →
      (momentumCalcStock rsi sma interval md).current_rsi_avg =
        meanOpt (tailN rsi (total_candles_stock interval md)) ∧
      (momentumCalcStock rsi sma interval md).prev_rsi_avg =
        meanOpt (pySlice rsi (-(2 * (total_candles_stock interval md : ℤ)))
          (-(total_candles_stock interval md : ℤ)))) ∧
    (data.close.length < 2 * get_candles_per_period tf md →
      crypto_pre_analysis data tf md rp sp = none) := by
  have hfall : rsi.length < total_candles_stock interval md →
      momentumCalcStock rsi sma interval md =
        { rsi_momentum_flag := false, sma_momentum_flag := false,
          current_rsi_avg := lastOpt rsi, prev_rsi_avg := lastOpt rsi,
          current_sma_avg := lastOpt sma, prev_sma_avg := lastOpt sma } := by
    intro h
    unfold momentumCalcStock
    rw [if_neg (by omega)]
  refine ⟨hfall, ?_, ?_, ?_⟩
  · intro v h hv
    rw [MomentumResult.rsi_momentum_val, hfall h]
    dsimp only
    rw [hv]
    unfold optSub
    simp
  · intro h hW
    unfold momentumCalcStock
    rw [if_pos h, if_neg hW]
    exact ⟨rfl, rfl⟩
  · intro h
    unfold crypto_pre_analysis
    by_cases h20 : data.close.length ≤ 20
    · rw [if_pos h20]
    · rw [if_neg h20]
      cases hst : calculate_stoch_rsi data.close 14 14 3 3 with
      | none => rfl
      | some kda =>
        dsimp only
        rw [if_pos (by omega)]

/-- Witness for the amended C1, exercising the short-series fallback,
the zero momentum value, the window branch and the crypto skip. -/
theorem c1_amended_momentum_fallback_witness :
    (momentumCalcStock [some 7] [some 8] "1d" 22 =
      { rsi_momentum_flag := false, sma_momentum_flag := false,
        current_rsi_avg := lastOpt [some 7], prev_rsi_avg := lastOpt [some 7],
        current_sma_avg := lastOpt [some 8], prev_sma_avg := lastOpt [some 8] }) ∧
    (momentumCalcStock [some 7] [some 8] "1d" 22).rsi_momentum_val = some 0 ∧
    (momentumCalcStock c1_rsi c1_rsi "1d" 22).current_rsi_avg =
      meanOpt (tailN c1_rsi (total_candles_stock "1d" 22)) ∧
    crypto_pre_analysis { close := List.replicate 25 1, volume := List.replicate 25 1 }
      "1d" 22 14 14 = none := by
  have h1 := c1_amended_momentum_fallback [some 7] [some 8] "1d" 22
    { close := List.replicate 25 1, volume := List.replicate 25 1 } "1d" 14 14
  have h2 := c1_amended_momentum_fallback c1_rsi c1_rsi "1d" 22
    { close := List.replicate 25 1, volume := List.replicate 25 1 } "1d" 14 14
  exact ⟨h1.1 (by decide), h1.2.1 7 (by decide) (by decide),
    (h2.2.2.1 (by decide) (by decide)).1, h1.2.2.2 (by decide)⟩

/-- Counterexample to C2: one uncached id and a failing batched
upstream call — the resolver returns the empty map, so the unresolved
id is absent rather than mapped to a market cap of 0 as the claim
requires. -/
theorem c2_counterexample :
    (get_multiple_crypto_market_caps_model envFail freshState ["bitcoin"] 0).1 = [] ∧
    lookupStr (get_multiple_crypto_market_caps_model envFail freshState
      ["bitcoin"] 0).1 "bitcoin" = none := by
  exact ⟨rfl, rfl⟩

/-- Membership in the cached partition of the resolver result. -/
lemma mem_cached_partition (g : String → Option ℚ) (ids : List String)
    (cid : String) (v : ℚ) :
    (cid, v) ∈ ids.filterMap (fun c => (g c).map (fun w => (c, w))) ↔
      cid ∈ ids ∧ g cid = some v := by
  simp only [List.mem_filterMap, Option.map_eq_some']
  constructor
  · rintro ⟨c, hc, w, hw, heq⟩
    injection heq with h1 h2
    subst h1
    subst h2
    exact ⟨hc, hw⟩
  · rintro ⟨hc, hv⟩
    exact ⟨cid, hc, v, hv, rfl⟩

/-- Claim C2 amended: when the batched upstream call fails, the
resolver returns exactly the partial results already served from cache
— an id appears in the returned map, with its cached value, precisely
when it was requested and validly cached; uncached ids are absent (the
0 default applies only to a successful response that omits an id). -/
theorem c2_amended_partial_results (env : CryptoEnv) (st : CryptoState)
    (ids : List String) (now : ℚ)
    (hfail : ∀ l, env.mcapBatchUpstream l = none) (cid : String) (v : ℚ) :
    (cid, v) ∈ (get_multiple_crypto_market_caps_model env st ids now).1 ↔
      cid ∈ ids ∧
        cache_get st.mcapCache ("market_cap_" ++ cid) 300 now = some v := by
  unfold get_multiple_crypto_market_caps_model
  by_cases hids : ids = []
  · subst hids
    simp
  · rw [if_neg hids]
    by_cases hunc : ids.filter (fun c =>
        (cache_get st.mcapCache ("market_cap_" ++ c) 300 now).isNone) = []
    · rw [if_pos hunc]
      exact mem_cached_partition _ ids cid v
    · rw [if_neg hunc, hfail]
      exact mem_cached_partition _ ids cid v

/-- Witness for the amended C2: with one cached and one uncached id and
a failing upstream, the cached id is returned with its cached value. -/
theorem c2_amended_partial_results_witness :
    ("bitcoin", (777 : ℚ)) ∈ (get_multiple_crypto_market_caps_model envFail
      c2WitnessState ["bitcoin", "ethereum"] 0).1 :=
  (c2_amended_partial_results envFail c2WitnessState ["bitcoin", "ethereum"] 0
    (fun _ => rfl) "bitcoin" 777).mpr
    ⟨by decide, by
      rw [show c2WitnessState.mcapCache =
        cache_set emptyStore "market_cap_bitcoin" 777 0 from rfl]
      rw [show ("market_cap_" ++ "bitcoin" : String) = "market_cap_bitcoin" from rfl]
      rw [cache_get_set_same]
      norm_num⟩

section RateLimiterRun

/-- Running calls that all fall inside the window started at `t0` never
resets the counter: starting from `c` used calls the i-th call is
allowed exactly while `c + i` is under the limit, and the counter ends
at `min limit (c + number of calls)`. -/
lemma runCalls_within (L : ℕ) (W t0 : ℚ) :
    ∀ (ts : List ℚ) (c : ℕ), c ≤ L → (∀ t ∈ ts, t - t0 ≤ W) →
    runCalls { calls := c, reset_time := t0, limit := L, window := W } ts =
      ((List.range ts.length).map (fun i => decide (c + i < L)),
       { calls := min L (c + ts.length), reset_time := t0, limit := L,
         window := W }) := by
  intro ts
  induction ts with
  | nil =>
    intro c hc _
    simp [runCalls, Nat.min_eq_right hc]
  | cons t ts ih =>
    intro c hc hall
    have hw : ¬ (W < t - t0) := not_lt.mpr (hall t (List.mem_cons_self t ts))
    unfold runCalls check_rate_limit_one
    dsimp only
    rw [if_neg hw]
    by_cases hcL : c < L
    · rw [if_pos hcL]
      dsimp only
      rw [ih (c + 1) hcL (fun u hu => hall u (List.mem_cons_of_mem t hu))]
      simp only [List.length_cons, List.range_succ_eq_map, List.map_cons,
        List.map_map]
      have h0 : decide (c + 0 < L) = true := decide_eq_true (by omega)
      rw [h0]
      have hfun : ((fun i => decide (c + i < L)) ∘ Nat.succ) =
          (fun i => decide (c + 1 + i < L)) := by
        funext i
        show decide (c + (i + 1) < L) = decide (c + 1 + i < L)
        exact decide_eq_decide.mpr (by omega)
      rw [hfun]
      have hmin : min L (c + (ts.length + 1)) = min L (c + 1 + ts.length) := by
        omega
      rw [hmin]
    · rw [if_neg hcL]
      have hceq : c = L := le_antisymm hc (not_lt.mp hcL)
      dsimp only
      rw [ih c hc (fun u hu => hall u (List.mem_cons_of_mem t hu))]
      simp only [List.length_cons, List.range_succ_eq_map, List.map_cons,
        List.map_map]
      have h0 : decide (c + 0 < L) = false := decide_eq_false (by omega)
      rw [h0]
      have hfun : ((fun i => decide (c + i < L)) ∘ Nat.succ) =
          (fun i => decide (c + i < L)) := by
        funext i
        show decide (c + (i + 1) < L) = decide (c + i < L)
        exact decide_eq_decide.mpr (by omega)
      rw [hfun]
      have hmin : min L (c + (ts.length + 1)) = min L (c + ts.length) := by
        omega
      rw [hmin]

end RateLimiterRun

/-- Claim C5: from a freshly reset window starting at `t0`, the first
`limit` allow checks within the window all return True, the
`limit + 1`-th within the same window returns False, and a check at a
time more than `window` seconds after `t0` resets the counter and
returns True again. -/
theorem c5_rate_limiter_window (L : ℕ) (hL : 0 < L) (W t0 : ℚ)
    (ts : List ℚ) (hlen : ts.length = L + 1) (hw : ∀ t ∈ ts, t - t0 ≤ W)
    (t2 : ℚ) (h2 : W < t2 - t0) :
    (∀ i, i < L →
      (runCalls { calls := 0, reset_time := t0, limit := L, window := W }
        ts).1.getD i false = true) ∧
    (runCalls { calls := 0, reset_time := t0, limit := L, window := W }
      ts).1.getD L false = false ∧
    check_rate_limit_one
      (runCalls { calls := 0, reset_time := t0, limit := L, window := W }
        ts).2 t2 =
      (true, { calls := 1, reset_time := t2, limit := L, window := W }) := by
  have hrun := runCalls_within L W t0 ts 0 (Nat.zero_le L) hw
  rw [hrun]
  have hgetD : ∀ i, i < L + 1 →
      ((List.range (L + 1)).map (fun i => decide (0 + i < L))).getD i false =
        decide (0 + i < L) := by
    intro i hi
    rw [List.getD_eq_getElem?_getD, List.getElem?_map,
      List.getElem?_range hi]
    rfl
  refine ⟨?_, ?_, ?_⟩
  · intro i hi
    dsimp only
    rw [hlen, hgetD i (by omega)]
    exact decide_eq_true (by omega)
  · dsimp only
    rw [hlen, hgetD L (by omega)]
    exact decide_eq_false (by omega)
  · dsimp only
    unfold check_rate_limit_one
    dsimp only
    rw [if_pos h2]
    dsimp only
    rw [if_pos hL]

/-- Witness for C5: limit 2, window 60 seconds, three calls inside the
window and one after it. -/
theorem c5_rate_limiter_window_witness :
    (runCalls { calls := 0, reset_time := 0, limit := 2, window := 60 }
      [(1 : ℚ), 2, 3]).1.getD 0 false = true ∧
    (runCalls { calls := 0, reset_time := 0, limit := 2, window := 60 }
      [(1 : ℚ), 2, 3]).1.getD 2 false = false ∧
    check_rate_limit_one
      (runCalls { calls := 0, reset_time := 0, limit := 2, window := 60 }
        [(1 : ℚ), 2, 3]).2 100 =
      (true, { calls := 1, reset_time := 100, limit := 2, window := 60 }) := by
  have hw : ∀ t ∈ [(1 : ℚ), 2, 3], t - 0 ≤ 60 := by
    intro t ht
    fin_cases ht <;> norm_num
  have h := c5_rate_limiter_window 2 (by norm_num) 60 0 [1, 2, 3] rfl hw 100
    (by norm_num)
  exact ⟨h.1 0 (by norm_num), h.2.1, h.2.2⟩

section SignalEval

/-- Concrete evaluation of the analyzer on the synthetic series with
lookback 3: the three oversold points (18, 15, 19) give the count-based
anchor position 2, so the averaged window is `iloc[0:3] = [25, 18, 15]`
with mean 58/3; the signal is BUY since 40 > 58/3. -/
lemma analyze_c7_eval :
    analyze_stoch_signal c7_series 3 =
      (Signal.BUY, some 40, some (58 / 3), none) := by
  have hosc : maskCount c7_series (fun v => decide (v < 20)) = 3 := by decide
  have hobc : maskCount c7_series (fun v => decide (80 < v)) = 0 := by decide
  have hwin : (c7_series.drop (3 - 1 + 1 - 3)).take
      (3 - 1 + 1 - (3 - 1 + 1 - 3)) = [some 25, some 18, some 15] := by decide
  have hmean : meanOpt [some 25, some 18, some 15] = some (58 / 3) := by
    unfold meanOpt
    show some (meanQ [25, 18, 15]) = some (58 / 3)
    unfold meanQ
    norm_num
  have hlast : lastOpt c7_series = some 40 := by decide
  unfold analyze_stoch_signal
  rw [if_neg (by decide)]
  rw [hosc, hobc]
  rw [if_neg (by norm_num : ¬ (3 : ℕ) = 0), if_pos (show (0 : ℕ) = 0 from rfl)]
  dsimp only
  rw [hwin, hmean, hlast]
  have hgt : optGtB (some 40) (some (58 / 3)) = true := by
    unfold optGtB
    exact decide_eq_true (by norm_num)
  rw [hgt]
  rfl

/-- The signal component is the BUY-before-SELL conditional on the
other components of the analyzer output. -/
lemma analyze_signal_spec (s : List (Option ℚ)) (n : ℕ)
    (h : n + 1 ≤ s.length) :
    (analyze_stoch_signal s n).1 =
      (if optGtB (analyze_stoch_signal s n).2.1
          (analyze_stoch_signal s n).2.2.1 then Signal.BUY
       else if optLtB (analyze_stoch_signal s n).2.1
          (analyze_stoch_signal s n).2.2.2 then Signal.SELL
       else Signal.HOLD) := by
  unfold analyze_stoch_signal
  rw [if_neg (by omega)]

/-- Exhaustive case split of the two-condition signal conditional. -/
lemma signal_if_cases (A B : Bool) :
    ((if A then Signal.BUY else if B then Signal.SELL else Signal.HOLD) =
        Signal.BUY ↔ A = true) ∧
    ((if A then Signal.BUY else if B then Signal.SELL else Signal.HOLD) =
        Signal.SELL ↔ (A = false ∧ B = true)) ∧
    ((if A then Signal.BUY else if B then Signal.SELL else Signal.HOLD) =
        Signal.HOLD ↔ (A = false ∧ B = false)) := by
  cases A <;> cases B <;> simp

end SignalEval

/-- Counterexample to C7: on the claim's own input — the series
`[25, 18, 15, 19, 22, 40]` with lookback 3 — the program returns the
oversold average `mean(25, 18, 15) = 58/3`, not `mean(18, 15, 19) =
52/3`: `index.get_loc` applied to the masked sub-series' own index
yields the count-based position 2 (three oversold points), so the code
averages `iloc[0:3]`, a window that does not end at the last oversold
point. -/
theorem c7_counterexample :
    analyze_stoch_signal c7_series 3 =
      (Signal.BUY, some 40, some (58 / 3), none) ∧
    ¬ (analyze_stoch_signal c7_series 3).2.2.1 = some (52 / 3) := by
  refine ⟨analyze_c7_eval, ?_⟩
  rw [analyze_c7_eval]
  intro hc
  injection hc with h2
  norm_num at h2

/-- Claim C7 amended: the analyzer on `[25, 18, 15, 19, 22, 40]` with
lookback 3 returns BUY with current 40 and oversold average
`mean(25, 18, 15) = 58/3` — the excursion window is anchored at
(number of oversold points − 1) in the original series, because the
code evaluates `index.get_loc` on the masked sub-series' own index,
rather than at the last oversold point's position; in general,
whenever the guard passes, BUY holds exactly when the oversold average
is defined and below the current value, SELL exactly when that fails
and the overbought average is defined and above the current value, and
HOLD exactly when both fail. -/
theorem c7_signal_priority (s : List (Option ℚ)) (n : ℕ)
    (h : n + 1 ≤ s.length) :
    analyze_stoch_signal c7_series 3 =
      (Signal.BUY, some 40, some (58 / 3), none) ∧
    ((analyze_stoch_signal s n).1 = Signal.BUY ↔
      optGtB (analyze_stoch_signal s n).2.1
        (analyze_stoch_signal s n).2.2.1 = true) ∧
    ((analyze_stoch_signal s n).1 = Signal.SELL ↔
      (optGtB (analyze_stoch_signal s n).2.1
        (analyze_stoch_signal s n).2.2.1 = false ∧
       optLtB (analyze_stoch_signal s n).2.1
        (analyze_stoch_signal s n).2.2.2 = true)) ∧
    ((analyze_stoch_signal s n).1 = Signal.HOLD ↔
      (optGtB (analyze_stoch_signal s n).2.1
        (analyze_stoch_signal s n).2.2.1 = false ∧
       optLtB (analyze_stoch_signal s n).2.1
        (analyze_stoch_signal s n).2.2.2 = false)) := by
  refine ⟨analyze_c7_eval, ?_⟩
  rw [analyze_signal_spec s n h]
  exact signal_if_cases _ _

/-- Witness for the amended C7 at the synthetic series itself. -/
theorem c7_signal_priority_witness :
    analyze_stoch_signal c7_series 3 =
      (Signal.BUY, some 40, some (58 / 3), none) ∧
    ((analyze_stoch_signal c7_series 3).1 = Signal.BUY ↔
      optGtB (analyze_stoch_signal c7_series 3).2.1
        (analyze_stoch_signal c7_series 3).2.2.1 = true) :=
  ⟨(c7_signal_priority c7_series 3 (by decide)).1,
   (c7_signal_priority c7_series 3 (by decide)).2.1⟩

/-- Claim C9: when the upstream info call raises, `get_stock_info`
returns a zero market-cap / zero average-volume row and caches it;
while that cached zero entry is valid, any later `screen_stocks`
iteration with positive minimum-volume and minimum-market-cap filters
resolves the info from the cache (whatever the upstream would do now)
and skips the symbol at the coarse-filter step, before any
price-history fetch, leaving the cache as it is. -/
theorem c9_stock_info_failure_filter (cache : CacheStore StockInfo)
    (s : String) (t dt minv minc : ℚ) (up2 : InfoUpstream)
    (hmiss : cache_get cache ("stock_info_" ++ s) 21600 t = none)
    (hdt : dt ≤ 21600) (hminv : 0 < minv) :
    (get_stock_info InfoUpstream.failure cache s t).1 =
      { symbol := s, market_cap := 0, avg_volume := 0 } ∧
    cache_get (get_stock_info InfoUpstream.failure cache s t).2
      ("stock_info_" ++ s) 21600 (t + dt) =
      some { symbol := s, market_cap := 0, avg_volume := 0 } ∧
    screen_stocks_coarse_step up2 (get_stock_info InfoUpstream.failure cache s t).2
      s minv minc (t + dt) =
      (StockStep.skipped, (get_stock_info InfoUpstream.failure cache s t).2) := by
  have hfail : get_stock_info InfoUpstream.failure cache s t =
      ({ symbol := s, market_cap := 0, avg_volume := 0 },
       cache_set cache ("stock_info_" ++ s)
         { symbol := s, market_cap := 0, avg_volume := 0 } t) := by
    unfold get_stock_info
    dsimp only
    rw [hmiss]
  have hhit : cache_get (cache_set cache ("stock_info_" ++ s)
      { symbol := s, market_cap := 0, avg_volume := 0 } t)
      ("stock_info_" ++ s) 21600 (t + dt) =
      some { symbol := s, market_cap := 0, avg_volume := 0 } := by
    rw [cache_get_set_same]
    have helapsed : t + dt - t = dt := by ring
    rw [helapsed, if_neg (not_lt.mpr hdt)]
  rw [hfail]
  dsimp only
  refine ⟨rfl, hhit, ?_⟩
  unfold screen_stocks_coarse_step get_stock_info
  dsimp only
  rw [hhit]
  dsimp only
  rw [if_pos (Or.inl hminv)]

/-- Witness for C9 with an empty cache, a concrete symbol and the
default screening minimums. -/
theorem c9_stock_info_failure_filter_witness :
    screen_stocks_coarse_step (InfoUpstream.success 5000000000 2000000)
      (get_stock_info InfoUpstream.failure (emptyStore (α := StockInfo))
        "AAPL" 0).2 "AAPL" 1000000 1000000000 (0 + 100) =
      (StockStep.skipped,
       (get_stock_info InfoUpstream.failure (emptyStore (α := StockInfo))
         "AAPL" 0).2) :=
  (c9_stock_info_failure_filter emptyStore "AAPL" 0 100 1000000 1000000000
    (InfoUpstream.success 5000000000 2000000) rfl (by norm_num)
    (by norm_num)).2.2

section ScreenIdempotent

/-- A cache hit serves the price data without touching the state or the
upstream. -/
lemma get_crypto_price_hit (env : CryptoEnv) (st : CryptoState)
    (symbol period interval : String) (now : ℚ) (d : PriceData)
    (hd : cache_get st.priceCache
      ("yahoo_" ++ symbol ++ "_" ++ period ++ "_" ++ interval)
      (ttl_map_interval interval) now = some d) :
    get_crypto_price_model env st symbol period interval now = (some d, st) := by
  unfold get_crypto_price_model
  dsimp only
  rw [hd]

/-- When every requested id is validly cached, the batch resolver
returns the cached map and leaves the state untouched, independently of
the upstream. -/
lemma batch_all_cached (env : CryptoEnv) (st : CryptoState)
    (ids : List String) (now : ℚ)
    (h : ∀ cid ∈ ids,
      (cache_get st.mcapCache ("market_cap_" ++ cid) 300 now).isSome = true) :
    get_multiple_crypto_market_caps_model env st ids now =
      (ids.filterMap (fun cid =>
        (cache_get st.mcapCache ("market_cap_" ++ cid) 300 now).map
          (fun v => (cid, v))), st) := by
  unfold get_multiple_crypto_market_caps_model
  by_cases hids : ids = []
  · subst hids
    simp
  · rw [if_neg hids]
    dsimp only
    have hunc : ids.filter (fun cid =>
        (cache_get st.mcapCache ("market_cap_" ++ cid) 300 now).isNone) = [] := by
      rw [List.filter_eq_nil_iff]
      intro a ha
      obtain ⟨v, hv⟩ := Option.isSome_iff_exists.mp (h a ha)
      rw [hv]
      simp
    rw [if_pos hunc]

/-- A requested-and-cached id is found in the cached partition map. -/
lemma lookup_cached_isSome (g : String → Option ℚ) (ids : List String)
    (cid : String) (hmem : cid ∈ ids) (hg : (g cid).isSome = true) :
    (lookupStr (ids.filterMap (fun c => (g c).map (fun v => (c, v))))
      cid).isSome = true := by
  induction ids with
  | nil => cases hmem
  | cons a as ih =>
    rcases List.mem_cons.mp hmem with heq | hmem2
    · subst heq
      obtain ⟨v, hv⟩ := Option.isSome_iff_exists.mp hg
      rw [List.filterMap_cons, hv, Option.map_some']
      dsimp only
      unfold lookupStr
      rw [List.find?_cons_of_pos _ (by simp)]
      rfl
    · rw [List.filterMap_cons]
      cases hga : g a with
      | none =>
        rw [Option.map_none']
        dsimp only
        exact ih hmem2
      | some w =>
        rw [Option.map_some']
        dsimp only
        by_cases hac : a = cid
        · subst hac
          unfold lookupStr
          rw [List.find?_cons_of_pos _ (by simp)]
          rfl
        · unfold lookupStr at ih ⊢
          rw [List.find?_cons_of_neg _ (by simpa using hac)]
          exact ih hmem2

/-- A map in which a lookup succeeds is nonempty. -/
lemma lookupStr_ne_nil (t : List (String × ℚ)) (k : String)
    (h : (lookupStr t k).isSome = true) : t ≠ [] := by
  intro he
  subst he
  simp [lookupStr] at h

/-- Screening one symbol whose price data and market cap are served
from cache / the pre-fetched dictionary leaves the state untouched and
does not consult the upstream environment. -/
lemma screen_one_all_cached (env env2 : CryptoEnv) (st : CryptoState)
    (s tf : String) (md rp sp : ℕ) (mcaps : List (String × ℚ)) (now : ℚ)
    (h : ∀ info, lookupStr get_crypto_symbols s = some info →
      (cache_get st.priceCache
        ("yahoo_" ++ info.symbol ++ "_" ++ crypto_period_map tf ++ "_" ++ tf)
        (ttl_map_interval tf) now).isSome = true ∧
      (lookupStr mcaps info.coingecko_id).isSome = true) :
    (screen_cryptocurrency_model env st s tf md rp sp mcaps now).2 = st ∧
    screen_cryptocurrency_model env st s tf md rp sp mcaps now =
      screen_cryptocurrency_model env2 st s tf md rp sp mcaps now := by
  unfold screen_cryptocurrency_model
  cases hs : lookupStr get_crypto_symbols s with
  | none => exact ⟨rfl, rfl⟩
  | some info =>
    dsimp only
    obtain ⟨hp, hm⟩ := h info hs
    obtain ⟨d, hd⟩ := Option.isSome_iff_exists.mp hp
    rw [get_crypto_price_hit env st info.symbol (crypto_period_map tf) tf now d hd,
      get_crypto_price_hit env2 st info.symbol (crypto_period_map tf) tf now d hd]
    dsimp only
    cases hpre : crypto_pre_analysis d tf md rp sp with
    | none => exact ⟨rfl, rfl⟩
    | some pre =>
      dsimp only
      have hcond : mcaps ≠ [] ∧
          (lookupStr mcaps info.coingecko_id).isSome = true :=
        ⟨lookupStr_ne_nil mcaps info.coingecko_id hm, hm⟩
      rw [if_pos hcond, if_pos hcond]
      exact ⟨rfl, rfl⟩

/-- The screening loop over all-cached symbols preserves the state and
is independent of the upstream environment. -/
lemma screen_loop_all_cached (env env2 : CryptoEnv) (st : CryptoState)
    (tf : String) (md rp sp : ℕ) (mcaps : List (String × ℚ)) (now : ℚ) :
    ∀ (syms : List String) (rs : List CryptoResult),
    (∀ s ∈ syms, ∀ info, lookupStr get_crypto_symbols s = some info →
      (cache_get st.priceCache
        ("yahoo_" ++ info.symbol ++ "_" ++ crypto_period_map tf ++ "_" ++ tf)
        (ttl_map_interval tf) now).isSome = true ∧
      (lookupStr mcaps info.coingecko_id).isSome = true) →
    (syms.foldl (screen_loop_step env tf md rp sp mcaps now) (rs, st)).2 = st ∧
    syms.foldl (screen_loop_step env tf md rp sp mcaps now) (rs, st) =
      syms.foldl (screen_loop_step env2 tf md rp sp mcaps now) (rs, st) := by
  intro syms
  induction syms with
  | nil =>
    intro rs _
    exact ⟨rfl, rfl⟩
  | cons s ss ih =>
    intro rs h
    obtain ⟨hst, henv⟩ := screen_one_all_cached env env2 st s tf md rp sp mcaps
      now (fun info hinfo => h s (List.mem_cons_self s ss) info hinfo)
    have hrest : ∀ u ∈ ss, ∀ info, lookupStr get_crypto_symbols u = some info →
        (cache_get st.priceCache
          ("yahoo_" ++ info.symbol ++ "_" ++ crypto_period_map tf ++ "_" ++ tf)
          (ttl_map_interval tf) now).isSome = true ∧
        (lookupStr mcaps info.coingecko_id).isSome = true :=
      fun u hu info hinfo => h u (List.mem_cons_of_mem s hu) info hinfo
    rw [List.foldl_cons, List.foldl_cons]
    have hbody : screen_loop_step env tf md rp sp mcaps now (rs, st) s =
        ((match (screen_cryptocurrency_model env st s tf md rp sp mcaps now).1 with
          | some res => rs ++ [res]
          | none => rs), st) := by
      unfold screen_loop_step
      dsimp only
      rw [hst]
    have hbody2 : screen_loop_step env2 tf md rp sp mcaps now (rs, st) s =
        ((match (screen_cryptocurrency_model env st s tf md rp sp mcaps now).1 with
          | some res => rs ++ [res]
          | none => rs), st) := by
      unfold screen_loop_step
      dsimp only
      rw [← henv, hst]
    rw [hbody, hbody2]
    exact ih _ hrest

/-- Core of C8: with all price and market-cap inputs validly cached,
the batch screen is a pure read — the state survives unchanged and the
environment is never consulted. -/
lemma screen_multiple_all_cached (env env2 : CryptoEnv) (st : CryptoState)
    (syms : List String) (tf : String) (md rp sp : ℕ) (now : ℚ)
    (hprice : ∀ s ∈ syms, ∀ info, lookupStr get_crypto_symbols s = some info →
      (cache_get st.priceCache
        ("yahoo_" ++ info.symbol ++ "_" ++ crypto_period_map tf ++ "_" ++ tf)
        (ttl_map_interval tf) now).isSome = true)
    (hmcap : ∀ s ∈ syms, ∀ info, lookupStr get_crypto_symbols s = some info →
      (cache_get st.mcapCache ("market_cap_" ++ info.coingecko_id) 300
        now).isSome = true) :
    (screen_multiple_cryptocurrencies_model env st syms tf md rp sp now).2 = st ∧
    screen_multiple_cryptocurrencies_model env st syms tf md rp sp now =
      screen_multiple_cryptocurrencies_model env2 st syms tf md rp sp now := by
  unfold screen_multiple_cryptocurrencies_model
  by_cases hsy : syms = []
  · rw [if_pos hsy, if_pos hsy]
    exact ⟨rfl, rfl⟩
  · rw [if_neg hsy, if_neg hsy]
    dsimp only
    by_cases hval : syms.filter (fun s =>
        (lookupStr get_crypto_symbols s).isSome) = []
    · rw [if_pos hval, if_pos hval]
      exact ⟨rfl, rfl⟩
    · rw [if_neg hval, if_neg hval]
      dsimp only
      have hidscached : ∀ cid ∈ syms.filterMap (fun s =>
          (lookupStr get_crypto_symbols s).map (fun i => i.coingecko_id)),
          (cache_get st.mcapCache ("market_cap_" ++ cid) 300 now).isSome =
            true := by
        intro cid hcid
        rw [List.mem_filterMap] at hcid
        obtain ⟨s, hsmem, hmap⟩ := hcid
        rw [Option.map_eq_some'] at hmap
        obtain ⟨info, hinfo, hcid2⟩ := hmap
        subst hcid2
        exact hmcap s hsmem info hinfo
      rw [batch_all_cached env st _ now hidscached,
        batch_all_cached env2 st _ now hidscached]
      dsimp only
      have hloop := screen_loop_all_cached env env2 st tf md rp sp
        ((syms.filterMap (fun s =>
          (lookupStr get_crypto_symbols s).map (fun i => i.coingecko_id))).filterMap
          (fun cid => (cache_get st.mcapCache ("market_cap_" ++ cid) 300
            now).map (fun v => (cid, v)))) now
        (syms.filter (fun s => (lookupStr get_crypto_symbols s).isSome)) []
        (by
          intro s hs info hinfo
          have hs2 : s ∈ syms := (List.mem_filter.mp hs).1
          refine ⟨hprice s hs2 info hinfo, ?_⟩
          refine lookup_cached_isSome _ _ info.coingecko_id ?_ ?_
          · rw [List.mem_filterMap]
            exact ⟨s, hs2, by rw [hinfo]; rfl⟩
          · exact hmcap s hs2 info hinfo)
      refine ⟨?_, ?_⟩
      · exact hloop.1
      · rw [hloop.2]

end ScreenIdempotent

/-- Claim C8: when every input of a batch screen is served from cache
(the price history of each registered symbol and each market cap are
validly cached), the call leaves the process state unchanged, its
result does not depend on the upstream environment at all (no upstream
call can influence it), and a second identical call returns exactly the
same rows — same composite scores, same descending order. -/
theorem c8_screen_idempotent (env : CryptoEnv) (st : CryptoState)
    (syms : List String) (tf : String) (md rp sp : ℕ) (now : ℚ)
    (hprice : ∀ s ∈ syms, ∀ info, lookupStr get_crypto_symbols s = some info →
      (cache_get st.priceCache
        ("yahoo_" ++ info.symbol ++ "_" ++ crypto_period_map tf ++ "_" ++ tf)
        (ttl_map_interval tf) now).isSome = true)
    (hmcap : ∀ s ∈ syms, ∀ info, lookupStr get_crypto_symbols s = some info →
      (cache_get st.mcapCache ("market_cap_" ++ info.coingecko_id) 300
        now).isSome = true) :
    (screen_multiple_cryptocurrencies_model env st syms tf md rp sp now).2 = st ∧
    screen_multiple_cryptocurrencies_model env
      (screen_multiple_cryptocurrencies_model env st syms tf md rp sp now).2
      syms tf md rp sp now =
      screen_multiple_cryptocurrencies_model env st syms tf md rp sp now ∧
    (∀ env2, screen_multiple_cryptocurrencies_model env2 st syms tf md rp sp now =
      screen_multiple_cryptocurrencies_model env st syms tf md rp sp now) := by
  have h1 := screen_multiple_all_cached env env st syms tf md rp sp now hprice hmcap
  refine ⟨h1.1, ?_, ?_⟩
  · rw [h1.1]
  · intro env2
    exact (screen_multiple_all_cached env2 env st syms tf md rp sp now hprice
      hmcap).2

/-- Witness for C8: screening `["BTC"]` daily against the all-cached
state (even under an environment whose every upstream call fails)
leaves the state unchanged. -/
theorem c8_screen_idempotent_witness :
    (screen_multiple_cryptocurrencies_model envFail c8WitnessState ["BTC"]
      "1d" 7 14 14 0).2 = c8WitnessState :=
  (c8_screen_idempotent envFail c8WitnessState ["BTC"] "1d" 7 14 14 0
    (by
      intro s hs info hinfo
      have hsbtc : s = "BTC" := by simpa using hs
      subst hsbtc
      rw [show lookupStr get_crypto_symbols "BTC" = some btcInfo from rfl]
        at hinfo
      injection hinfo with hinfo2
      subst hinfo2
      rw [show ("yahoo_" ++ btcInfo.symbol ++ "_" ++ crypto_period_map "1d"
          ++ "_" ++ "1d" : String) = "yahoo_BTC-USD_2y_1d" from rfl]
      rw [show c8WitnessState.priceCache = cache_set emptyStore
          "yahoo_BTC-USD_2y_1d" { close := [1], volume := [1] } 0 from rfl]
      rw [cache_get_set_same]
      rw [show ttl_map_interval "1d" = 86400 from rfl]
      rw [if_neg (by norm_num)]
      rfl)
    (by
      intro s hs info hinfo
      have hsbtc : s = "BTC" := by simpa using hs
      subst hsbtc
      rw [show lookupStr get_crypto_symbols "BTC" = some btcInfo from rfl]
        at hinfo
      injection hinfo with hinfo2
      subst hinfo2
      rw [show ("market_cap_" ++ btcInfo.coingecko_id : String) =
          "market_cap_bitcoin" from rfl]
      rw [show c8WitnessState.mcapCache = cache_set emptyStore
          "market_cap_bitcoin" 5 0 from rfl]
      rw [cache_get_set_same]
      rw [if_neg (by norm_num)]
      rfl)).1

end StockScreener
